import Mathlib

/-!
Verification development for the simple-mvc cat/dog CRUD backend.

The embedding follows the source:
* `src/server/models/Cat.js` — the Cat schema (unique trimmed name,
  `bedsOwned` a required number with minimum 0, `createdDate` defaulting
  to the current time).
* `src/server/controllers/index.js` and `src/unnamed/part_000` — the
  request handlers `getName`, `setName`, `setDog`, `searchName`,
  `updateLast`, `updateAge`, plus the module-level `lastAdded` tracker
  seeded with `defaultData`.

JavaScript request-body values are modelled by `JSValue` (strings and
integer numbers) with JS truthiness; a missing field is `Option.none`.
Mongoose documents are modelled by `PetDoc` with `Option` fields for the
values that may be absent (`undefined`): incrementing an absent field
(`undefined++` giving `NaN`) keeps it `none`.  The database is a pair of
collections; `save` performs mongoose cast/required/min validation and the
unique-index check on the cat name, and upserts by `_id`.  Time enters
through an explicit `now` argument (the source's `Date.now`), and
storage availability through a boolean `dbOk`.
-/

namespace SimpleMvc

/-- A JavaScript value that can appear in `req.body` / `req.query`. -/
inductive JSValue : Type where
  | str (s : String)
  | num (n : Int)
deriving DecidableEq, Repr

/-- JS truthiness: `""` and `0` are falsy, everything else here is truthy. -/
def JSValue.truthy : JSValue → Bool
  | .str s => s ≠ ""
  | .num n => n ≠ 0

/-- Truthiness of an optional field: a missing field (`undefined`) is falsy,
so `!req.body.x` succeeds exactly when the field is absent or falsy. -/
def truthyOpt : Option JSValue → Bool
  | none => false
  | some v => v.truthy

/-- JS string conversion, as performed by a template literal. -/
def JSValue.toJSString : JSValue → String
  | .str s => s
  | .num n => toString n

/-- Mongoose cast of a value to the schema type `Number`; a string that does
not parse as a number casts to `NaN`, modelled as `none`. -/
def jsToNum : JSValue → Option Int
  | .num n => some n
  | .str s => s.toInt?

/-- The `trim: true` setter of the schema: strip leading and trailing
whitespace from the string (applied when the `name` path is assigned). -/
def jsTrim (s : String) : String :=
  ⟨((s.data.dropWhile Char.isWhitespace).reverse.dropWhile
      Char.isWhitespace).reverse⟩

/-- Which mongoose model a document belongs to. -/
inductive Species : Type where
  | cat
  | dog
deriving DecidableEq, Repr

/-- A mongoose document.  `id` is the `_id` assigned at construction.
Fields not set on the document are `none` (JS `undefined`); a `Number`
field that holds `NaN` is also `none`. -/
structure PetDoc : Type where
  species : Species
  id : Nat
  name : String
  bedsOwned : Option Int
  breed : Option String
  age : Option Int
  createdDate : Nat
deriving DecidableEq, Repr

/-- The database: one collection per model. -/
structure Store : Type where
  cats : List PetDoc
  dogs : List PetDoc
deriving DecidableEq, Repr

/-- Cat schema validation (`models/Cat.js`): `name` is required and trimmed
(non-empty after trimming), `bedsOwned` is a required number with `min: 0`. -/
def catValid (d : PetDoc) : Bool :=
  jsTrim d.name ≠ "" && (match d.bedsOwned with
    | some n => decide (0 ≤ n)
    | none => false)

/-- Modelled from the spec: the Dog model file is not under `src/`; the spec
gives its schema as `name` (required), `breed` (string, required), `age`
(integer, required, no minimum stated, no uniqueness constraint). -/
def dogValid (d : PetDoc) : Bool :=
  d.name ≠ "" && (match d.breed with
    | some b => b ≠ ""
    | none => false) && d.age.isSome

/-- Insert the document if its `_id` is new, otherwise replace the stored
record with that `_id` (mongoose `save` upsert-by-`_id` behaviour). -/
def upsert (coll : List PetDoc) (d : PetDoc) : List PetDoc :=
  if coll.any (fun c => c.id == d.id) then
    coll.map (fun c => if c.id == d.id then d else c)
  else
    coll ++ [d]

/-- `save` on a document: fails when the database is unreachable, when the
unique index on the cat `name` is violated by a different document, or when
schema validation rejects the document; otherwise upserts by `_id`. -/
def saveDoc (dbOk : Bool) (store : Store) (d : PetDoc) : Except Unit Store :=
  if ¬ dbOk then .error ()
  else match d.species with
    | .cat =>
      if store.cats.any (fun c => c.name == d.name && c.id != d.id) then .error ()
      else if catValid d then .ok { store with cats := upsert store.cats d }
      else .error ()
    | .dog =>
      if dogValid d then .ok { store with dogs := upsert store.dogs d }
      else .error ()

/-- A JSON response body produced by the handlers. -/
inductive RBody : Type where
  | nameOnly (name : String)
  | catInfo (name : String) (beds : Option Int)
  | dogInfo (name : String) (breed : Option String) (age : Option Int)
  | errMsg (msg : String)
deriving DecidableEq, Repr

/-- An HTTP response: status code and JSON body. -/
structure Response : Type where
  status : Nat
  body : RBody
deriving DecidableEq, Repr

/-- The mutable process state the handlers touch: the database, the
module-level `lastAdded` tracker, and the next `_id` mongoose will assign. -/
structure AppState : Type where
  store : Store
  lastAdded : PetDoc
  nextId : Nat
deriving DecidableEq, Repr

/-- `defaultData` (`{ name: 'unknown', bedsOwned: 0 }`) turned into the
initial `lastAdded` document, `new Cat(defaultData)` at process start. -/
def defaultData (t0 : Nat) : PetDoc :=
  { species := .cat, id := 0, name := "unknown", bedsOwned := some 0,
    breed := none, age := none, createdDate := t0 }

/-- Process state at startup: empty collections, tracker holding the
placeholder cat. -/
def initState (t0 : Nat) : AppState :=
  { store := { cats := [], dogs := [] }, lastAdded := defaultData t0, nextId := 1 }

/-- The request body fields the create handlers read. -/
structure ReqBody : Type where
  firstname : Option JSValue
  lastname : Option JSValue
  beds : Option JSValue
  breed : Option JSValue
  age : Option JSValue
deriving DecidableEq, Repr

/-- `getName`: return the name of the last added pet. -/
def getName (s : AppState) : Response :=
  { status := 200, body := .nameOnly s.lastAdded.name }

/-- `new Cat(catData)`: a fresh cat document with the given `_id`, name
(the `trim: true` setter applied on assignment), cast `bedsOwned`, and
`createdDate` defaulted to the current time. -/
def newCatDoc (now idv : Nat) (nm : String) (beds : Option Int) : PetDoc :=
  { species := .cat, id := idv, name := jsTrim nm, bedsOwned := beds,
    breed := none, age := none, createdDate := now }

/-- `setName`: create a cat.  Requires truthy `firstname`, `lastname` and
`beds` (else 400); builds `name` as the template literal
`firstname lastname` (trimmed on assignment by the schema's `trim: true`),
casts `beds` to a number, saves, and on success reassigns `lastAdded` and
returns its `name` and `bedsOwned`; a failed save yields 500. -/
def setName (now : Nat) (dbOk : Bool) (body : ReqBody) (s : AppState) :
    Response × AppState :=
  if ¬ (truthyOpt body.firstname && truthyOpt body.lastname && truthyOpt body.beds) then
    ({ status := 400, body := .errMsg "firstname, lastname and beds are all required" }, s)
  else
    let builtName :=
      ((body.firstname.map JSValue.toJSString).getD "") ++ " " ++
        ((body.lastname.map JSValue.toJSString).getD "")
    let newCat : PetDoc :=
      newCatDoc now s.nextId builtName (body.beds.bind jsToNum)
    match saveDoc dbOk s.store newCat with
    | .ok store' =>
      ({ status := 200, body := .catInfo newCat.name newCat.bedsOwned },
        { store := store', lastAdded := newCat, nextId := s.nextId + 1 })
    | .error _ =>
      ({ status := 500, body := .errMsg "failed to create cat" },
        { s with nextId := s.nextId + 1 })

/-- `setDog`: create a dog.  Requires truthy `firstname`, `lastname`,
`breed` and `age` (else 400); builds the name, saves, and on success
reassigns `lastAdded`; a failed save yields 500. -/
def setDog (now : Nat) (dbOk : Bool) (body : ReqBody) (s : AppState) :
    Response × AppState :=
  if ¬ (truthyOpt body.firstname && truthyOpt body.lastname &&
        truthyOpt body.breed && truthyOpt body.age) then
    ({ status := 400, body := .errMsg "Fill in all fields" }, s)
  else
    let builtName :=
      ((body.firstname.map JSValue.toJSString).getD "") ++ " " ++
        ((body.lastname.map JSValue.toJSString).getD "")
    let newDog : PetDoc :=
      { species := .dog, id := s.nextId, name := builtName,
        bedsOwned := none, breed := (body.breed.map JSValue.toJSString),
        age := (body.age.bind jsToNum), createdDate := now }
    match saveDoc dbOk s.store newDog with
    | .ok store' =>
      ({ status := 200, body := .dogInfo newDog.name newDog.breed newDog.age },
        { store := store', lastAdded := newDog, nextId := s.nextId + 1 })
    | .error _ =>
      ({ status := 500, body := .errMsg "failed to create dog" },
        { s with nextId := s.nextId + 1 })

/-- `searchName`: search a cat by name.  Missing/empty query → 400;
`findOne` returning nothing → 200 with `error: 'No cats found'`;
a match → 200 with its `name` and `bedsOwned`; storage failure → 500. -/
def searchName (dbOk : Bool) (q : Option String) (s : AppState) : Response :=
  match q with
  | none => { status := 400, body := .errMsg "Name is required to perform a search" }
  | some qn =>
    if qn = "" then
      { status := 400, body := .errMsg "Name is required to perform a search" }
    else if ¬ dbOk then
      { status := 500, body := .errMsg "Something went wrong" }
    else
      match s.store.cats.find? (fun c => c.name == qn) with
      | none => { status := 200, body := .errMsg "No cats found" }
      | some doc => { status := 200, body := .catInfo doc.name doc.bedsOwned }

/-- JS `x++` on an `Option Int` field: incrementing `undefined` gives `NaN`
(`none`); incrementing a number increments it. -/
def incOpt : Option Int → Option Int
  | some n => some (n + 1)
  | none => none

/-- `updateLast`: increment `lastAdded.bedsOwned` in place, then save the
tracker.  The increment happens before the save, so the tracker keeps the
new value even when the save fails and the handler answers 500. -/
def updateLast (dbOk : Bool) (s : AppState) : Response × AppState :=
  let doc := { s.lastAdded with bedsOwned := incOpt s.lastAdded.bedsOwned }
  match saveDoc dbOk s.store doc with
  | .ok store' =>
    ({ status := 200, body := .catInfo doc.name doc.bedsOwned },
      { s with store := store', lastAdded := doc })
  | .error _ =>
    ({ status := 500, body := .errMsg "Something went wrong" },
      { s with lastAdded := doc })

/-- `updateAge`: increment `lastAdded.age` in place, then save the tracker;
answers the dog-shaped body on success, 500 on save failure. -/
def updateAge (dbOk : Bool) (s : AppState) : Response × AppState :=
  let doc := { s.lastAdded with age := incOpt s.lastAdded.age }
  match saveDoc dbOk s.store doc with
  | .ok store' =>
    ({ status := 200, body := .dogInfo doc.name doc.breed doc.age },
      { s with store := store', lastAdded := doc })
  | .error _ =>
    ({ status := 500, body := .errMsg "Something went wrong" },
      { s with lastAdded := doc })

/-- A one-cat store used to exercise the search and duplicate paths. -/
def aliceCat : PetDoc :=
  { species := .cat, id := 1, name := "Alice Smith", bedsOwned := some 2,
    breed := none, age := none, createdDate := 0 }

/-- App state whose store holds exactly `aliceCat`. -/
def aliceState : AppState :=
  { store := { cats := [aliceCat], dogs := [] },
    lastAdded := aliceCat, nextId := 2 }

/-- A state whose Tracker holds a valid dog, for the C6 witness. -/
def rexState : AppState :=
  { store := { cats := [], dogs := [] },
    lastAdded := { species := .dog, id := 1, name := "Rex Smith",
                   bedsOwned := none, breed := some "lab", age := some 3,
                   createdDate := 0 },
    nextId := 2 }

/-- Concrete create-cat request used to exercise `setName`. -/
def aliceBody : ReqBody :=
  { firstname := some (.str "Alice"), lastname := some (.str "Smith"),
    beds := some (.num 2), breed := none, age := none }

/-- A document with its `createdDate` erased (set to 0), for comparing
documents up to creation time. -/
def stripDate (d : PetDoc) : PetDoc := { d with createdDate := 0 }

/-- App state with every document's `createdDate` erased. -/
def stripState (s : AppState) : AppState :=
  { store := { cats := s.store.cats.map stripDate,
               dogs := s.store.dogs.map stripDate },
    lastAdded := stripDate s.lastAdded, nextId := s.nextId }

/-- Invariant under which `updateLast` save calls succeed: the Tracker
holds a cat whose record is stored (same `_id`), its name survives
trimming, and no other stored cat shares its name. -/
structure GoodCat (s : AppState) : Prop where
  species : s.lastAdded.species = .cat
  name : jsTrim s.lastAdded.name ≠ ""
  stored : ∃ c ∈ s.store.cats, c.id = s.lastAdded.id
  uniq : ∀ c ∈ s.store.cats, c.name = s.lastAdded.name →
    c.id = s.lastAdded.id

/-- C5: for every create-cat request missing any of firstname, lastname or
beds, the handler responds 400, performs no save, and leaves both the
stored collection and the Tracker unchanged. -/
theorem setName_missing_field_400 (now : Nat) (dbOk : Bool) (body : ReqBody)
    (s : AppState)
    (h : body.firstname = none ∨ body.lastname = none ∨ body.beds = none) :
    setName now dbOk body s =
      ({ status := 400,
         body := .errMsg "firstname, lastname and beds are all required" }, s) := by
  rcases h with h | h | h <;> simp [setName, h, truthyOpt]

theorem setName_missing_field_400_witness :
    setName 0 true
        { firstname := some (.str "Alice"), lastname := some (.str "Smith"),
          beds := none, breed := none, age := none } (initState 0) =
      ({ status := 400,
         body := .errMsg "firstname, lastname and beds are all required" },
        initState 0) :=
  setName_missing_field_400 0 true _ _ (Or.inr (Or.inr rfl))

/-- C8: at process start the Tracker is the placeholder Cat with name
`unknown` and bedsOwned 0, and `getName` always returns the Tracker's name;
before any create, it returns `{name: 'unknown'}`. -/
theorem getName_initial_unknown :
    (∀ t0 : Nat,
      (initState t0).lastAdded.name = "unknown" ∧
      (initState t0).lastAdded.bedsOwned = some 0 ∧
      (initState t0).lastAdded.species = .cat ∧
      getName (initState t0) = { status := 200, body := .nameOnly "unknown" }) ∧
    (∀ s : AppState,
      getName s = { status := 200, body := .nameOnly s.lastAdded.name }) :=
  ⟨fun _ => ⟨rfl, rfl, rfl, rfl⟩, fun _ => rfl⟩

/-- C9: a create-cat request with beds present but equal to `0` (or the
empty string), and a create-dog request with age present but equal to `0`,
both get 400 and no save — although `bedsOwned = 0` passes the schema's
`min: 0` constraint and the (spec-modelled) Dog schema puts no minimum on
age, so `age = 0` validates as well. -/
theorem create_rejects_falsy_zero (now : Nat) (dbOk : Bool)
    (bodyC bodyD : ReqBody) (s : AppState)
    (hb : bodyC.beds = some (.num 0) ∨ bodyC.beds = some (.str ""))
    (ha : bodyD.age = some (.num 0)) :
    setName now dbOk bodyC s =
      ({ status := 400,
         body := .errMsg "firstname, lastname and beds are all required" }, s) ∧
    setDog now dbOk bodyD s =
      ({ status := 400, body := .errMsg "Fill in all fields" }, s) ∧
    catValid { species := .cat, id := 1, name := "Alice Smith",
               bedsOwned := some 0, breed := none, age := none,
               createdDate := 0 } = true ∧
    dogValid { species := .dog, id := 1, name := "Rex Smith",
               bedsOwned := none, breed := some "lab", age := some 0,
               createdDate := 0 } = true := by
  refine ⟨?_, ?_, by decide, by decide⟩
  · rcases hb with hb | hb <;> simp [setName, hb, truthyOpt, JSValue.truthy]
  · simp [setDog, ha, truthyOpt, JSValue.truthy]

theorem create_rejects_falsy_zero_witness :
    setName 0 true
        { firstname := some (.str "Alice"), lastname := some (.str "Smith"),
          beds := some (.num 0), breed := none, age := none } (initState 0) =
      ({ status := 400,
         body := .errMsg "firstname, lastname and beds are all required" },
        initState 0) ∧
    setDog 0 true
        { firstname := some (.str "Rex"), lastname := some (.str "Smith"),
          beds := none, breed := some (.str "lab"), age := some (.num 0) }
        (initState 0) =
      ({ status := 400, body := .errMsg "Fill in all fields" }, initState 0) ∧
    catValid { species := .cat, id := 1, name := "Alice Smith",
               bedsOwned := some 0, breed := none, age := none,
               createdDate := 0 } = true ∧
    dogValid { species := .dog, id := 1, name := "Rex Smith",
               bedsOwned := none, breed := some "lab", age := some 0,
               createdDate := 0 } = true :=
  create_rejects_falsy_zero 0 true _ _ (initState 0) (Or.inl rfl) rfl

/-- C10: `updateLast` increments the Tracker's bedsOwned before the save,
so when the save fails and the handler answers 500, the in-memory Tracker
is still one greater than before — the error path is not atomic with
respect to Tracker state (the store itself is unchanged). -/
theorem updateLast_not_atomic_on_failure (dbOk : Bool) (s : AppState) (n : Int)
    (hn : s.lastAdded.bedsOwned = some n)
    (hfail : saveDoc dbOk s.store
        { s.lastAdded with bedsOwned := incOpt s.lastAdded.bedsOwned } =
      .error ()) :
    (updateLast dbOk s).1 =
      { status := 500, body := .errMsg "Something went wrong" } ∧
    (updateLast dbOk s).2.lastAdded.bedsOwned = some (n + 1) ∧
    (updateLast dbOk s).2.store = s.store := by
  simp only [updateLast, hfail]
  simp [hn, incOpt]

theorem updateLast_not_atomic_on_failure_witness :
    (updateLast false (initState 0)).1 =
      { status := 500, body := .errMsg "Something went wrong" } ∧
    (updateLast false (initState 0)).2.lastAdded.bedsOwned = some (0 + 1) ∧
    (updateLast false (initState 0)).2.store = (initState 0).store :=
  updateLast_not_atomic_on_failure false (initState 0) 0 rfl rfl

/-- C4: with a non-empty name query, `searchName` answers the stored cat's
`{name, beds}` when one with that name exists, and `{error: 'No cats
found'}` with status 200 when none does; with the query missing it answers
400. -/
theorem searchName_cases (s : AppState) (q : String) (hq : q ≠ "") :
    (∀ _h : ∃ c ∈ s.store.cats, c.name = q,
      ∃ doc ∈ s.store.cats, doc.name = q ∧
        searchName true (some q) s =
          { status := 200, body := .catInfo doc.name doc.bedsOwned }) ∧
    ((∀ c ∈ s.store.cats, c.name ≠ q) →
      searchName true (some q) s =
        { status := 200, body := .errMsg "No cats found" }) ∧
    (∀ (dbOk : Bool) (s' : AppState),
      searchName dbOk none s' =
        { status := 400,
          body := .errMsg "Name is required to perform a search" }) := by
  refine ⟨?_, ?_, fun dbOk s' => rfl⟩
  · intro h
    have hs : (s.store.cats.find? (fun c => c.name == q)).isSome := by
      rw [List.find?_isSome]
      obtain ⟨c, hc, hcq⟩ := h
      exact ⟨c, hc, by simp [hcq]⟩
    obtain ⟨doc, hdoc⟩ := Option.isSome_iff_exists.mp hs
    refine ⟨doc, List.mem_of_find?_eq_some hdoc, ?_, ?_⟩
    · simpa using List.find?_some hdoc
    · simp [searchName, hq, hdoc]
  · intro h
    have hnone : s.store.cats.find? (fun c => c.name == q) = none := by
      rw [List.find?_eq_none]
      intro c hc
      simp [h c hc]
    simp [searchName, hq, hnone]

theorem searchName_cases_witness :
    searchName true (some "Alice Smith") aliceState =
      { status := 200, body := .catInfo "Alice Smith" (some 2) } ∧
    searchName true (some "Bob") aliceState =
      { status := 200, body := .errMsg "No cats found" } ∧
    searchName true none aliceState =
      { status := 400,
        body := .errMsg "Name is required to perform a search" } := by
  refine ⟨?_, ?_, ?_⟩
  · obtain ⟨doc, hmem, hname, heq⟩ :=
      (searchName_cases aliceState "Alice Smith" (by decide)).1
        ⟨aliceCat, by simp [aliceState], rfl⟩
    have hd : doc = aliceCat := by
      simpa [aliceState] using hmem
    rw [hd] at heq
    exact heq
  · exact (searchName_cases aliceState "Bob" (by decide)).2.1 (by decide)
  · exact (searchName_cases aliceState "Bob" (by decide)).2.2 true aliceState

/-- C6: when the Tracker holds a record with no `age` field (a Cat),
`updateAge` increments `undefined` to `NaN`: afterwards the Tracker's age
is still not an integer and the response body is never a dog-shaped body
with an integer age, so the handler's postcondition (age increased by 1,
returned in `{name, breed, age}`) fails; it does hold when the Tracker
holds a Dog whose incremented document validates and the save succeeds. -/
theorem updateAge_requires_dog (dbOk : Bool) (s : AppState) :
    (s.lastAdded.age = none →
      (updateAge dbOk s).2.lastAdded.age = none ∧
      ∀ (nm : String) (br : Option String) (k : Int),
        (updateAge dbOk s).1.body ≠ .dogInfo nm br (some k)) ∧
    (∀ n : Int, s.lastAdded.age = some n → s.lastAdded.species = .dog →
      dogValid { s.lastAdded with age := some (n + 1) } = true →
      updateAge true s =
        ({ status := 200,
           body := .dogInfo s.lastAdded.name s.lastAdded.breed (some (n + 1)) },
         { s with
            store := { s.store with
              dogs := upsert s.store.dogs { s.lastAdded with age := some (n + 1) } },
            lastAdded := { s.lastAdded with age := some (n + 1) } })) := by
  obtain ⟨store, lastAdded, nextId⟩ := s
  obtain ⟨sp, idv, nmv, bo, brv, ag, cd⟩ := lastAdded
  constructor
  · intro h0
    simp only at h0
    subst h0
    unfold updateAge
    dsimp only
    split <;> simp [incOpt]
  · intro n hn hsp hvalid
    simp only at hn hsp
    subst hn
    subst hsp
    simp only at hvalid
    unfold updateAge
    dsimp only
    simp [saveDoc, incOpt, hvalid]

theorem updateAge_requires_dog_witness :
    ((updateAge true (initState 0)).2.lastAdded.age = none ∧
      ∀ (nm : String) (br : Option String) (k : Int),
        (updateAge true (initState 0)).1.body ≠ .dogInfo nm br (some k)) ∧
    updateAge true rexState =
      ({ status := 200, body := .dogInfo "Rex Smith" (some "lab") (some (3 + 1)) },
       { rexState with
          store := { rexState.store with
            dogs := upsert rexState.store.dogs
              { rexState.lastAdded with age := some (3 + 1) } },
          lastAdded := { rexState.lastAdded with age := some (3 + 1) } }) :=
  ⟨(updateAge_requires_dog true (initState 0)).1 rfl,
    (updateAge_requires_dog true rexState).2 3 rfl rfl (by decide)⟩

lemma mid_space_ne_empty (a b : String) : a ++ " " ++ b ≠ "" := by
  intro h
  have hsp : (" " : String).data = [' '] := rfl
  have h2 : (a ++ " " ++ b).data = ("" : String).data := congrArg String.data h
  simp [String.data_append, hsp] at h2

/-- C1: a create-cat request with truthy firstname, lastname and beds,
whose built name is trim-stable and unused in the store, saves a new Cat
named `firstname lastname` with `bedsOwned` the request's beds, answers
200 with that `{name, beds}`, and reassigns the Tracker to exactly the
newly stored record. -/
theorem setName_success (now : Nat) (body : ReqBody) (s : AppState)
    (fv lv bv : JSValue) (n : Int)
    (hf : body.firstname = some fv) (hl : body.lastname = some lv)
    (hb : body.beds = some bv)
    (hft : fv.truthy = true) (hlt : lv.truthy = true) (hbt : bv.truthy = true)
    (hn : jsToNum bv = some n) (hn0 : 0 ≤ n)
    (htrim : jsTrim (fv.toJSString ++ " " ++ lv.toJSString) =
      fv.toJSString ++ " " ++ lv.toJSString)
    (hfree : ∀ c ∈ s.store.cats,
      c.name ≠ fv.toJSString ++ " " ++ lv.toJSString)
    (hid : ∀ c ∈ s.store.cats, c.id ≠ s.nextId) :
    (newCatDoc now s.nextId (fv.toJSString ++ " " ++ lv.toJSString)
        (some n)).name = fv.toJSString ++ " " ++ lv.toJSString ∧
    setName now true body s =
      ({ status := 200,
         body := .catInfo (fv.toJSString ++ " " ++ lv.toJSString) (some n) },
       { store := { s.store with cats := s.store.cats ++
           [newCatDoc now s.nextId (fv.toJSString ++ " " ++ lv.toJSString)
             (some n)] },
         lastAdded := newCatDoc now s.nextId
           (fv.toJSString ++ " " ++ lv.toJSString) (some n),
         nextId := s.nextId + 1 }) := by
  refine ⟨by simp [newCatDoc, htrim], ?_⟩
  obtain ⟨⟨cats, dogs⟩, last, nid⟩ := s
  simp only at hfree hid
  have hdoc : newCatDoc now nid (fv.toJSString ++ " " ++ lv.toJSString)
      (some n) =
      { species := .cat, id := nid,
        name := fv.toJSString ++ " " ++ lv.toJSString,
        bedsOwned := some n, breed := none, age := none,
        createdDate := now } := by
    simp [newCatDoc, htrim]
  have hdup : cats.any
      (fun c => c.name == fv.toJSString ++ " " ++ lv.toJSString &&
        c.id != nid) = false := by
    rw [List.any_eq_false]
    intro c hc
    simp [hfree c hc]
  have hup : cats.any (fun c => c.id == nid) = false := by
    rw [List.any_eq_false]
    intro c hc
    simp [hid c hc]
  have hvalid : catValid
      { species := .cat, id := nid,
        name := fv.toJSString ++ " " ++ lv.toJSString,
        bedsOwned := some n, breed := none, age := none,
        createdDate := now } = true := by
    simp [catValid, htrim, mid_space_ne_empty, hn0]
  have hsave : saveDoc true { cats := cats, dogs := dogs }
      (newCatDoc now nid (fv.toJSString ++ " " ++ lv.toJSString) (some n)) =
      .ok { cats :=
              cats ++ [newCatDoc now nid
                (fv.toJSString ++ " " ++ lv.toJSString) (some n)],
            dogs := dogs } := by
    rw [hdoc]
    unfold saveDoc upsert
    dsimp only
    simp [hdup, hvalid, hup]
  unfold setName
  rw [hf, hl, hb]
  dsimp only
  rw [if_neg (by simp [truthyOpt, hft, hlt, hbt])]
  dsimp only [Option.map_some, Option.getD_some, Option.some_bind]
  have hfv : (Option.map JSValue.toJSString (some fv)).getD "" =
      fv.toJSString := rfl
  have hlv : (Option.map JSValue.toJSString (some lv)).getD "" =
      lv.toJSString := rfl
  rw [hn, hfv, hlv, hsave, hdoc]

theorem setName_success_witness :
    (newCatDoc 7 1 "Alice Smith" (some 2)).name = "Alice Smith" ∧
    setName 7 true aliceBody (initState 0) =
      ({ status := 200, body := .catInfo "Alice Smith" (some 2) },
       { store :=
           { cats := [newCatDoc 7 1 "Alice Smith" (some 2)], dogs := [] },
         lastAdded := newCatDoc 7 1 "Alice Smith" (some 2),
         nextId := 2 }) := by
  have hs : ((JSValue.str "Alice").toJSString ++ " " ++
      (JSValue.str "Smith").toJSString) = "Alice Smith" := rfl
  have h := setName_success 7 aliceBody (initState 0)
    (.str "Alice") (.str "Smith") (.num 2) 2
    rfl rfl rfl (by decide) (by decide) (by decide) rfl (by decide)
    (by decide) (by intro c hc; simp [initState] at hc)
    (by intro c hc; simp [initState] at hc)
  rw [hs] at h
  simpa [initState] using h

/-- C2: a create-cat request whose built name is already the name of a
stored cat fails its save on the unique index, the handler answers 500
(never 200), the store is untouched, and the no-duplicate-names invariant
is preserved. -/
theorem setName_duplicate_500 (now : Nat) (dbOk : Bool) (body : ReqBody)
    (s : AppState) (fv lv bv : JSValue)
    (hf : body.firstname = some fv) (hl : body.lastname = some lv)
    (hb : body.beds = some bv)
    (hft : fv.truthy = true) (hlt : lv.truthy = true) (hbt : bv.truthy = true)
    (hdup : ∃ c ∈ s.store.cats,
      c.name = jsTrim (fv.toJSString ++ " " ++ lv.toJSString))
    (hid : ∀ c ∈ s.store.cats, c.id ≠ s.nextId) :
    setName now dbOk body s =
      ({ status := 500, body := .errMsg "failed to create cat" },
       { s with nextId := s.nextId + 1 }) ∧
    (setName now dbOk body s).2.store = s.store ∧
    ((s.store.cats.map PetDoc.name).Nodup →
      ((setName now dbOk body s).2.store.cats.map PetDoc.name).Nodup) := by
  have hmain : setName now dbOk body s =
      ({ status := 500, body := .errMsg "failed to create cat" },
       { s with nextId := s.nextId + 1 }) := by
    obtain ⟨⟨cats, dogs⟩, last, nid⟩ := s
    simp only at hdup hid
    have hsave : ∀ bval, saveDoc dbOk { cats := cats, dogs := dogs }
        (newCatDoc now nid (fv.toJSString ++ " " ++ lv.toJSString) bval) =
        .error () := by
      intro bval
      cases dbOk with
      | false => simp [saveDoc]
      | true =>
        have hany : (cats.any fun c =>
            c.name == jsTrim (fv.toJSString ++ " " ++ lv.toJSString) &&
              c.id != nid) = true := by
          rw [List.any_eq_true]
          obtain ⟨c, hc, hcname⟩ := hdup
          exact ⟨c, hc, by simp [hcname, hid c hc]⟩
        unfold saveDoc newCatDoc
        dsimp only
        rw [hany]
        simp
    unfold setName
    rw [hf, hl, hb]
    dsimp only
    rw [if_neg (by simp [truthyOpt, hft, hlt, hbt])]
    dsimp only [Option.some_bind]
    have hfv : (Option.map JSValue.toJSString (some fv)).getD "" =
        fv.toJSString := rfl
    have hlv : (Option.map JSValue.toJSString (some lv)).getD "" =
        lv.toJSString := rfl
    rw [hfv, hlv, hsave (jsToNum bv)]
  refine ⟨hmain, by rw [hmain], fun hnd => by rw [hmain]; exact hnd⟩

theorem setName_duplicate_500_witness :
    setName 3 true aliceBody aliceState =
      ({ status := 500, body := .errMsg "failed to create cat" },
       { store := { cats := [aliceCat], dogs := [] },
         lastAdded := aliceCat, nextId := 3 }) ∧
    (setName 3 true aliceBody aliceState).2.store = aliceState.store ∧
    ((aliceState.store.cats.map PetDoc.name).Nodup →
      ((setName 3 true aliceBody aliceState).2.store.cats.map
        PetDoc.name).Nodup) := by
  have h := setName_duplicate_500 3 true aliceBody aliceState
    (.str "Alice") (.str "Smith") (.num 2)
    rfl rfl rfl (by decide) (by decide) (by decide)
    ⟨aliceCat, by simp [aliceState], by decide⟩
    (by
      intro c hc
      simp [aliceState] at hc
      subst hc
      decide)
  simpa [aliceState] using h

lemma self_mem_upsert (coll : List PetDoc) (d : PetDoc) :
    d ∈ upsert coll d := by
  unfold upsert
  by_cases hany : (coll.any fun c => c.id == d.id) = true
  · rw [if_pos hany]
    rw [List.any_eq_true] at hany
    obtain ⟨c, hc, hcid⟩ := hany
    rw [List.mem_map]
    exact ⟨c, hc, by simp [hcid]⟩
  · rw [if_neg hany]
    simp

lemma mem_upsert (coll : List PetDoc) (d x : PetDoc)
    (hx : x ∈ upsert coll d) : x = d ∨ x ∈ coll := by
  unfold upsert at hx
  by_cases hany : (coll.any fun c => c.id == d.id) = true
  · rw [if_pos hany, List.mem_map] at hx
    obtain ⟨y, hy, hyx⟩ := hx
    by_cases hyid : (y.id == d.id) = true
    · rw [if_pos hyid] at hyx
      exact Or.inl hyx.symm
    · rw [if_neg hyid] at hyx
      exact Or.inr (hyx ▸ hy)
  · rw [if_neg hany, List.mem_append] at hx
    rcases hx with hx | hx
    · exact Or.inr hx
    · exact Or.inl (by simpa using hx)

lemma find?_replace (coll : List PetDoc) (d : PetDoc) :
    ((coll.map fun x => if x.id == d.id then d else x).find?
        (fun x => x.id == d.id)) =
      if coll.any (fun x => x.id == d.id) then some d else none := by
  induction coll with
  | nil => rfl
  | cons a as ih =>
    by_cases ha : (a.id == d.id) = true
    · rw [List.map_cons, if_pos ha,
        List.find?_cons_of_pos _ (by simp), List.any_cons, ha]
      simp
    · rw [List.map_cons, if_neg ha,
        List.find?_cons_of_neg (p := fun x : PetDoc => x.id == d.id) _ ha,
        List.any_cons, ih]
      simp [ha]

lemma find?_upsert_id (coll : List PetDoc) (d : PetDoc)
    (hc : ∃ c ∈ coll, c.id = d.id) :
    (upsert coll d).find? (fun x => x.id == d.id) = some d := by
  have hany : (coll.any fun c => c.id == d.id) = true := by
    rw [List.any_eq_true]
    obtain ⟨c, hcm, hcid⟩ := hc
    exact ⟨c, hcm, by simp [hcid]⟩
  unfold upsert
  rw [if_pos hany, find?_replace, if_pos hany]

lemma updateLast_step (s : AppState) (n : Int) (h : GoodCat s)
    (hn : s.lastAdded.bedsOwned = some n) (hn0 : 0 ≤ n) :
    (updateLast true s).1 =
      { status := 200, body := .catInfo s.lastAdded.name (some (n + 1)) } ∧
    (updateLast true s).2.lastAdded.bedsOwned = some (n + 1) ∧
    (updateLast true s).2.lastAdded.id = s.lastAdded.id ∧
    (updateLast true s).2.lastAdded.name = s.lastAdded.name ∧
    GoodCat (updateLast true s).2 ∧
    (updateLast true s).2.store.cats.find? (fun c => c.id == s.lastAdded.id) =
      some ((updateLast true s).2.lastAdded) := by
  obtain ⟨hsp, hname, hstored, huniq⟩ := h
  obtain ⟨⟨cats, dogs⟩, last, nid⟩ := s
  obtain ⟨sp, idv, nmv, bo, brv, ag, cd⟩ := last
  simp only at hsp hname hstored huniq hn
  subst hsp
  subst hn
  have hposn : (0:Int) ≤ n + 1 := by omega
  have hdup : (cats.any fun c => c.name == nmv && c.id != idv) = false := by
    rw [List.any_eq_false]
    intro c hc
    by_cases hcn : c.name = nmv
    · simp [huniq c hc hcn]
    · simp [hcn]
  have hvalid : catValid
      { species := .cat, id := idv, name := nmv, bedsOwned := some (n + 1),
        breed := brv, age := ag, createdDate := cd } = true := by
    simp [catValid, hname, hposn]
  have hsave : saveDoc true { cats := cats, dogs := dogs }
      { species := .cat, id := idv, name := nmv, bedsOwned := some (n + 1),
        breed := brv, age := ag, createdDate := cd } =
      .ok { cats :=
              upsert cats
                { species := .cat, id := idv, name := nmv,
                  bedsOwned := some (n + 1), breed := brv, age := ag,
                  createdDate := cd },
            dogs := dogs } := by
    unfold saveDoc
    dsimp only
    rw [hdup]
    simp [hvalid]
  unfold updateLast
  dsimp only [incOpt]
  rw [hsave]
  refine ⟨rfl, rfl, rfl, rfl, ⟨rfl, by simpa using hname, ?_, ?_⟩, ?_⟩
  · exact ⟨_, self_mem_upsert _ _, rfl⟩
  · intro c hc hcn
    rcases mem_upsert _ _ _ hc with rfl | hcm
    · rfl
    · exact huniq c hcm hcn
  · exact find?_upsert_id cats
      { species := .cat, id := idv, name := nmv, bedsOwned := some (n + 1),
        breed := brv, age := ag, createdDate := cd } hstored

/-- C3: when the Tracker's record is stored and both saves succeed,
calling `updateLast` twice increments the Tracker's bedsOwned by exactly 2
and leaves the stored record with the Tracker's `_id` equal to the final
Tracker (hence with the same bedsOwned). -/
theorem updateLast_twice_adds_two (s : AppState) (n : Int) (h : GoodCat s)
    (hn : s.lastAdded.bedsOwned = some n) (hn0 : 0 ≤ n) :
    (updateLast true s).1.status = 200 ∧
    (updateLast true (updateLast true s).2).1.status = 200 ∧
    (updateLast true (updateLast true s).2).2.lastAdded.bedsOwned =
      some (n + 2) ∧
    (updateLast true (updateLast true s).2).2.store.cats.find?
        (fun c => c.id == s.lastAdded.id) =
      some ((updateLast true (updateLast true s).2).2.lastAdded) := by
  obtain ⟨h1resp, h1beds, h1id, h1name, h1good, h1find⟩ :=
    updateLast_step s n h hn hn0
  obtain ⟨h2resp, h2beds, h2id, h2name, h2good, h2find⟩ :=
    updateLast_step (updateLast true s).2 (n + 1) h1good h1beds (by omega)
  have hsum : n + 1 + 1 = n + 2 := by ring
  refine ⟨by rw [h1resp], by rw [h2resp], by rw [h2beds, hsum], ?_⟩
  rw [← h1id]
  exact h2find

theorem updateLast_twice_adds_two_witness :
    (updateLast true aliceState).1.status = 200 ∧
    (updateLast true (updateLast true aliceState).2).1.status = 200 ∧
    (updateLast true (updateLast true aliceState).2).2.lastAdded.bedsOwned =
      some (2 + 2) ∧
    (updateLast true (updateLast true aliceState).2).2.store.cats.find?
        (fun c => c.id == aliceState.lastAdded.id) =
      some ((updateLast true (updateLast true aliceState).2).2.lastAdded) :=
  updateLast_twice_adds_two aliceState 2
    ⟨rfl, by decide, ⟨aliceCat, by simp [aliceState], rfl⟩,
      by
        intro c hc hcn
        simp [aliceState] at hc
        subst hc
        rfl⟩
    rfl (by decide)

lemma upsert_stripDate (coll : List PetDoc) (d₁ d₂ : PetDoc)
    (h : stripDate d₁ = stripDate d₂) :
    (upsert coll d₁).map stripDate = (upsert coll d₂).map stripDate := by
  have hid : d₁.id = d₂.id := by
    have h2 := congrArg PetDoc.id h
    simpa [stripDate] using h2
  unfold upsert
  rw [hid]
  by_cases hany : (coll.any fun c => c.id == d₂.id) = true
  · rw [if_pos hany, if_pos hany, List.map_map, List.map_map]
    apply List.map_congr_left
    intro c hc
    by_cases hcid : (c.id == d₂.id) = true
    · simp [Function.comp, hcid, h]
    · simp [Function.comp, hcid]
  · rw [if_neg hany, if_neg hany, List.map_append, List.map_append]
    simp [h]

lemma saveDoc_stripDate (dbOk : Bool) (store : Store) (d₁ d₂ : PetDoc)
    (h : stripDate d₁ = stripDate d₂) :
    (saveDoc dbOk store d₁ = .error () ∧ saveDoc dbOk store d₂ = .error ()) ∨
    (∃ s₁ s₂, saveDoc dbOk store d₁ = .ok s₁ ∧
      saveDoc dbOk store d₂ = .ok s₂ ∧
      s₁.cats.map stripDate = s₂.cats.map stripDate ∧
      s₁.dogs.map stripDate = s₂.dogs.map stripDate) := by
  have hsp : d₁.species = d₂.species := by
    have h2 := congrArg PetDoc.species h
    simpa [stripDate] using h2
  have hid : d₁.id = d₂.id := by
    have h2 := congrArg PetDoc.id h
    simpa [stripDate] using h2
  have hnm : d₁.name = d₂.name := by
    have h2 := congrArg PetDoc.name h
    simpa [stripDate] using h2
  have hbo : d₁.bedsOwned = d₂.bedsOwned := by
    have h2 := congrArg PetDoc.bedsOwned h
    simpa [stripDate] using h2
  have hbr : d₁.breed = d₂.breed := by
    have h2 := congrArg PetDoc.breed h
    simpa [stripDate] using h2
  have hag : d₁.age = d₂.age := by
    have h2 := congrArg PetDoc.age h
    simpa [stripDate] using h2
  cases dbOk with
  | false => exact Or.inl ⟨by simp [saveDoc], by simp [saveDoc]⟩
  | true =>
    cases hs2 : d₂.species with
    | cat =>
      have hs1 : d₁.species = Species.cat := by rw [hsp, hs2]
      have red1 : saveDoc true store d₁ =
          (if store.cats.any (fun c => c.name == d₁.name && c.id != d₁.id)
            then .error ()
            else if catValid d₁ then
              .ok { store with cats := upsert store.cats d₁ }
            else .error ()) := by
        unfold saveDoc
        rw [hs1]
        simp
      have red2 : saveDoc true store d₂ =
          (if store.cats.any (fun c => c.name == d₂.name && c.id != d₂.id)
            then .error ()
            else if catValid d₂ then
              .ok { store with cats := upsert store.cats d₂ }
            else .error ()) := by
        unfold saveDoc
        rw [hs2]
        simp
      rw [red1, red2, hnm, hid]
      have hcv : catValid d₁ = catValid d₂ := by
        unfold catValid
        rw [hnm, hbo]
      by_cases hdup : (store.cats.any
          fun c => c.name == d₂.name && c.id != d₂.id) = true
      · rw [if_pos hdup, if_pos hdup]
        exact Or.inl ⟨rfl, rfl⟩
      · rw [if_neg hdup, if_neg hdup, hcv]
        by_cases hval : catValid d₂ = true
        · rw [if_pos hval, if_pos hval]
          exact Or.inr ⟨_, _, rfl, rfl, upsert_stripDate store.cats d₁ d₂ h,
            rfl⟩
        · rw [if_neg hval, if_neg hval]
          exact Or.inl ⟨rfl, rfl⟩
    | dog =>
      have hs1 : d₁.species = Species.dog := by rw [hsp, hs2]
      have red1 : saveDoc true store d₁ =
          (if dogValid d₁ then
            .ok { store with dogs := upsert store.dogs d₁ }
          else .error ()) := by
        unfold saveDoc
        rw [hs1]
        simp
      have red2 : saveDoc true store d₂ =
          (if dogValid d₂ then
            .ok { store with dogs := upsert store.dogs d₂ }
          else .error ()) := by
        unfold saveDoc
        rw [hs2]
        simp
      have hdv : dogValid d₁ = dogValid d₂ := by
        unfold dogValid
        rw [hnm, hbr, hag]
      rw [red1, red2, hdv]
      by_cases hval : dogValid d₂ = true
      · rw [if_pos hval, if_pos hval]
        exact Or.inr ⟨_, _, rfl, rfl, rfl,
          upsert_stripDate store.dogs d₁ d₂ h⟩
      · rw [if_neg hval, if_neg hval]
        exact Or.inl ⟨rfl, rfl⟩

/-- C7 counterexample: two create-cat invocations with identical request
parameters, identical store and identical Tracker, at times 0 and 1,
return the same response but different states — the stored record's
`createdDate` (defaulted to `Date.now`) differs, so handlers are not pure
mappings of (request, store, Tracker) alone. -/
theorem setName_not_pure_counterexample :
    (setName 0 true aliceBody (initState 0)).1 =
      (setName 1 true aliceBody (initState 0)).1 ∧
    (setName 0 true aliceBody (initState 0)).2 ≠
      (setName 1 true aliceBody (initState 0)).2 ∧
    (setName 0 true aliceBody (initState 0)).2.lastAdded.createdDate = 0 ∧
    (setName 1 true aliceBody (initState 0)).2.lastAdded.createdDate = 1 := by
  decide

/-- C7 amended: each handler is a pure mapping once the invocation time is
added to its inputs; the response payload and the state are independent of
that time except for the `createdDate` field of the newly created
document. -/
theorem handlers_pure_up_to_createdDate (t₁ t₂ : Nat) (dbOk : Bool)
    (body : ReqBody) (s : AppState) :
    (setName t₁ dbOk body s).1 = (setName t₂ dbOk body s).1 ∧
    stripState (setName t₁ dbOk body s).2 =
      stripState (setName t₂ dbOk body s).2 ∧
    (setDog t₁ dbOk body s).1 = (setDog t₂ dbOk body s).1 ∧
    stripState (setDog t₁ dbOk body s).2 =
      stripState (setDog t₂ dbOk body s).2 := by
  have hcat : (setName t₁ dbOk body s).1 = (setName t₂ dbOk body s).1 ∧
      stripState (setName t₁ dbOk body s).2 =
        stripState (setName t₂ dbOk body s).2 := by
    by_cases hguard : (truthyOpt body.firstname &&
        truthyOpt body.lastname && truthyOpt body.beds) = true
    · have hstrip : stripDate (newCatDoc t₁ s.nextId
          ((Option.map JSValue.toJSString body.firstname).getD "" ++ " " ++
            (Option.map JSValue.toJSString body.lastname).getD "")
          (body.beds.bind jsToNum)) =
        stripDate (newCatDoc t₂ s.nextId
          ((Option.map JSValue.toJSString body.firstname).getD "" ++ " " ++
            (Option.map JSValue.toJSString body.lastname).getD "")
          (body.beds.bind jsToNum)) := rfl
      unfold setName
      rw [if_neg (not_not_intro hguard), if_neg (not_not_intro hguard)]
      dsimp only
      rcases saveDoc_stripDate dbOk s.store _ _ hstrip with
        ⟨he₁, he₂⟩ | ⟨s₁, s₂, ho₁, ho₂, hcats, hdogs⟩
      · rw [he₁, he₂]
        exact ⟨rfl, rfl⟩
      · rw [ho₁, ho₂]
        exact ⟨rfl, by simp [stripState, stripDate, newCatDoc, hcats, hdogs]⟩
    · unfold setName
      rw [if_pos hguard, if_pos hguard]
      exact ⟨rfl, rfl⟩
  have hdog : (setDog t₁ dbOk body s).1 = (setDog t₂ dbOk body s).1 ∧
      stripState (setDog t₁ dbOk body s).2 =
        stripState (setDog t₂ dbOk body s).2 := by
    by_cases hguard : (truthyOpt body.firstname && truthyOpt body.lastname &&
        truthyOpt body.breed && truthyOpt body.age) = true
    · have hstrip : stripDate
          { species := .dog, id := s.nextId,
            name := (Option.map JSValue.toJSString body.firstname).getD "" ++
              " " ++ (Option.map JSValue.toJSString body.lastname).getD "",
            bedsOwned := none,
            breed := Option.map JSValue.toJSString body.breed,
            age := body.age.bind jsToNum, createdDate := t₁ } =
        stripDate
          { species := .dog, id := s.nextId,
            name := (Option.map JSValue.toJSString body.firstname).getD "" ++
              " " ++ (Option.map JSValue.toJSString body.lastname).getD "",
            bedsOwned := none,
            breed := Option.map JSValue.toJSString body.breed,
            age := body.age.bind jsToNum, createdDate := t₂ } := rfl
      unfold setDog
      rw [if_neg (not_not_intro hguard), if_neg (not_not_intro hguard)]
      dsimp only
      rcases saveDoc_stripDate dbOk s.store _ _ hstrip with
        ⟨he₁, he₂⟩ | ⟨s₁, s₂, ho₁, ho₂, hcats, hdogs⟩
      · rw [he₁, he₂]
        exact ⟨rfl, rfl⟩
      · rw [ho₁, ho₂]
        exact ⟨rfl, by simp [stripState, stripDate, hcats, hdogs]⟩
    · unfold setDog
      rw [if_pos hguard, if_pos hguard]
      exact ⟨rfl, rfl⟩
  exact ⟨hcat.1, hcat.2, hdog.1, hdog.2⟩

end SimpleMvc
